import Mathlib

/-!
Shallow embedding of the pandas pseudo-modelform data handler
(`PandasForm`, `FieldCheck`, `IsInCheck`, `LengthCheck`,
`PandasValidationColumn`, `PandasValidationFrame`).

Modelling conventions:
* A Python `dict` is an insertion-ordered association list (`Dict`):
  lookup finds the first matching key, assignment updates in place or
  appends a fresh key at the end.
* A cell value is `Value`: `vnull` stands for Python `None` / pandas `NaN`,
  `vint` for integers, `vstr` for strings.  Python truthiness of a value is
  `truthy`.
* `pd.DataFrame(list_of_row_dicts)` is `mkDFrame`: columns are the union of
  the row keys in first-appearance order, the index is the default
  `RangeIndex(0, N)`.  `df[col]` is `dfCol` (missing cells become `vnull`),
  boolean-mask selection `df[mask]` is `dfFilter`.
* A `ValidationError` is represented by its message string (`ErrMsg`).
* The form's `self.errors` dict mixes integer row keys with the string key
  `'__all__'`; no source operation ever reads across the two kinds, so it is
  split into `Errors.rows` (integer keys) and `Errors.allList` (the
  `'__all__'` entry).  Row indices produced by the source are the
  nonnegative `enumerate` indices, modelled as `Nat`.
-/

/-- Python `dict`: insertion-ordered association list. -/
abbrev Dict (K V : Type) := List (K × V)

/-- Python `d.get(k)` / `k in d`: first binding of `k`. -/
def Dict.get {K V : Type} [DecidableEq K] : Dict K V → K → Option V
  | [], _ => none
  | (k0, v0) :: rest, k => if k0 = k then some v0 else Dict.get rest k

/-- Python `d[k] = v`: replace in place, or append a new binding. -/
def Dict.set {K V : Type} [DecidableEq K] : Dict K V → K → V → Dict K V
  | [], k, v => [(k, v)]
  | (k0, v0) :: rest, k, v =>
      if k0 = k then (k, v) :: rest else (k0, v0) :: Dict.set rest k v

/-- Python `d.values()` in insertion order. -/
def Dict.values {K V : Type} (d : Dict K V) : List V := d.map Prod.snd

/-- A raw / cleaned cell value (`None`/`NaN`, int, or str). -/
inductive Value where
  | vnull : Value
  | vint (n : Int) : Value
  | vstr (s : String) : Value
  deriving DecidableEq

/-- Python truthiness of a cell value. -/
def truthy : Value → Bool
  | .vnull => false
  | .vint n => n ≠ 0
  | .vstr s => s ≠ ""

/-- pandas `Series.isnull()` on one value. -/
def isnullB : Value → Bool
  | .vnull => true
  | _ => false

/-- pandas `Series.str.len()` on one value: `NaN` (`none`) for non-strings. -/
def strLen : Value → Option Nat
  | .vstr s => some s.length
  | _ => none

/-- `strLen v <= L` with pandas semantics: a `NaN` length compares false. -/
def lenLe (v : Value) (L : Nat) : Bool :=
  match strLen v with
  | some k => k ≤ L
  | none => false

/-- A row of a DataFrame: a Python dict from column name to value. -/
abbrev PRow := Dict String Value

/-- `pd.DataFrame(list_of_row_dicts)`, with default `RangeIndex(0, N)`. -/
structure DFrame where
  cols : List String
  rows : List PRow
  deriving DecidableEq

/-- Column labels: union of row keys in first-appearance order. -/
def mkCols (rows : List PRow) : List String :=
  rows.foldl
    (fun acc r =>
      r.foldl (fun a kv => if a.contains kv.1 then a else a ++ [kv.1]) acc)
    []

def mkDFrame (rows : List PRow) : DFrame := ⟨mkCols rows, rows⟩

/-- `df[name]`: the column as a list of values, missing cells are `NaN`. -/
def dfCol (df : DFrame) (name : String) : List Value :=
  df.rows.map (fun r => (r.get name).getD .vnull)

/-- `df[mask]`: boolean-mask row selection (columns unchanged). -/
def dfFilter (df : DFrame) (mask : List Bool) : DFrame :=
  ⟨df.cols, ((df.rows.zip mask).filter (fun p => p.2)).map Prod.fst⟩

/-- An error message (the text of a `ValidationError`). -/
abbrev ErrMsg := String

/-- The check variants (`IsInCheck`, `LengthCheck`), each carrying its
`field_name` and variant parameters (`cached_list` resp. `length`). -/
inductive FieldCheck where
  | isInCheck (field_name : String) (cached_list : List Value) : FieldCheck
  | lengthCheck (field_name : String) (length : Nat) : FieldCheck
  deriving DecidableEq

def FieldCheck.field_name : FieldCheck → String
  | .isInCheck fn _ => fn
  | .lengthCheck fn _ => fn

/-- `get_error` of each variant (the `ValidationError` message; for
`LengthCheck` the template is formatted with `self.length`). -/
def FieldCheck.get_error : FieldCheck → ErrMsg
  | .isInCheck _ _ =>
      "Komórka zawiera dane które nie zgadzają się z możliwymi wartościami!"
  | .lengthCheck _ L =>
      "Komórka przekracza maksymalną długość (" ++ toString L ++ " znaków)!"

/-- The per-row selection predicate of `LengthCheck`'s nullable branch.
Python parses `... .str.len() <= self.length & ... .isnull()` as
`len <= (length & isnull)` (`&` binds tighter than `<=`), where the bool is
promoted to the bit `1`/`0` for the bitwise `&`. -/
def lenNullableMask (L : Nat) (v : Value) : Bool :=
  match strLen v with
  | some k => k ≤ (L &&& (if isnullB v then 1 else 0))
  | none => false

/-- What a check's `validate` returns: a boolean Series when `nullable`
is unset, a boolean-mask-filtered DataFrame (`df[mask]`) when it is set. -/
inductive VResult where
  | series (bs : List Bool) : VResult
  | frame (df : DFrame) : VResult
  deriving DecidableEq

/-- `check.validate(df, **kwargs)` with `kwargs.get('nullable')`. -/
def FieldCheck.validate (c : FieldCheck) (df : DFrame) (nullable : Bool) :
    VResult :=
  match c with
  | .isInCheck fn lst =>
      if nullable then
        .frame (dfFilter df
          (List.zipWith (fun a b => a && b)
            ((dfCol df fn).map (fun v => lst.contains v))
            ((dfCol df fn).map isnullB)))
      else
        .series ((dfCol df fn).map (fun v => lst.contains v))
  | .lengthCheck fn L =>
      if nullable then
        .frame (dfFilter df ((dfCol df fn).map (lenNullableMask L)))
      else
        .series ((dfCol df fn).map (fun v => lenLe v L))

/-- `enumerate(validation)` paired with the truthiness test `not row`:
iterating a Series yields its boolean values; iterating a DataFrame yields
its column labels, and `not label` is true only for the empty string.
Entry `i` says whether `handle_error` fires at index `i`. -/
def VResult.enumFalsy : VResult → List Bool
  | .series bs => bs.map (fun b => !b)
  | .frame df => df.cols.map (fun c => c = "")

/-- `PandasValidationColumn` (the stored `df` member is never read by
`validate`, so it is not modelled). -/
structure PandasValidationColumn where
  name : String
  checks : List FieldCheck
  errors : Dict Nat (Dict String (List ErrMsg))
  coerce : Bool
  nullable : Bool
  deriving DecidableEq

/-- `PandasValidationColumn.handle_error(check, index)`. -/
def PandasValidationColumn.handle_error (col : PandasValidationColumn)
    (check : FieldCheck) (index : Nat) : PandasValidationColumn :=
  let err := check.get_error
  match col.errors.get index with
  | none => { col with errors := col.errors.set index (Dict.set [] col.name [err]) }
  | some m =>
      match m.get col.name with
      | some l => { col with errors := col.errors.set index (m.set col.name (l ++ [err])) }
      | none => { col with errors := col.errors.set index (m.set col.name [err]) }

/-- The loop `for index, row in enumerate(validation): handle_error … if
not row else None`, with `k` the current enumeration index. -/
def runCheckLoop (col : PandasValidationColumn) (check : FieldCheck) :
    List Bool → Nat → PandasValidationColumn
  | [], _ => col
  | b :: rest, k =>
      runCheckLoop (if b then col.handle_error check k else col) check rest (k + 1)

/-- One iteration of the `for check in self.checks` loop. -/
def runCheck (col : PandasValidationColumn) (check : FieldCheck)
    (pandas_data : DFrame) : PandasValidationColumn :=
  runCheckLoop col check ((check.validate pandas_data col.nullable).enumFalsy) 0

def colValidateAux (pandas_data : DFrame) :
    List FieldCheck → PandasValidationColumn → PandasValidationColumn
  | [], col => col
  | c :: rest, col => colValidateAux pandas_data rest (runCheck col c pandas_data)

/-- `PandasValidationColumn.validate(pandas_data)`. -/
def PandasValidationColumn.validate (col : PandasValidationColumn)
    (pandas_data : DFrame) : PandasValidationColumn :=
  colValidateAux pandas_data col.checks col

/-- `PandasValidationFrame`. -/
structure PandasValidationFrame where
  cached_fields : Dict String PandasValidationColumn
  errors : Dict Nat (Dict String (List ErrMsg))
  valid : Bool
  deriving DecidableEq

/-- `bind_errors`: `self.errors[idx][key] = val` for every entry, in
iteration order.  Looking up a missing `idx` raises `KeyError`; the second
component is `false` in that case and the assignments made before the raise
are kept (in-place mutation up to the crash point). -/
def bindErrorsAux :
    List (Nat × Dict String (List ErrMsg)) →
    Dict Nat (Dict String (List ErrMsg)) →
    Dict Nat (Dict String (List ErrMsg)) × Bool
  | [], fe => (fe, true)
  | (idx, curr) :: rest, fe =>
      match fe.get idx with
      | none => (fe, false)
      | some m =>
          bindErrorsAux rest
            (fe.set idx (curr.foldl (fun a kv => a.set kv.1 kv.2) m))

/-- One step of the `# Init errors` loop:
`if val not in self.errors: self.errors[val] = {}`. -/
def ensureKey (e : Dict Nat (Dict String (List ErrMsg))) (v : Nat) :
    Dict Nat (Dict String (List ErrMsg)) :=
  if (e.get v).isSome then e else e.set v []

/-- The `# Init errors` loop of `PandasValidationFrame.validate`:
`for val in range(index.start, index.stop): …` for the default
`RangeIndex(0, N)`. -/
def initFrameErrors (errs : Dict Nat (Dict String (List ErrMsg))) (n : Nat) :
    Dict Nat (Dict String (List ErrMsg)) :=
  (List.range n).foldl ensureKey errs

/-- The `for name, field in self.cached_fields.items()` loop.  A `KeyError`
escaping `bind_errors` aborts the remaining iterations; the second
component records normal completion. -/
def frameValidateAux (pandas_data : DFrame) :
    List (String × PandasValidationColumn) → PandasValidationFrame →
    PandasValidationFrame × Bool
  | [], fr => (fr, true)
  | (name, field) :: rest, fr =>
      let field' := field.validate pandas_data
      let fr1 := { fr with cached_fields := fr.cached_fields.set name field' }
      if field'.errors = [] then frameValidateAux pandas_data rest fr1
      else
        let fr2 := { fr1 with valid := false }
        let be := bindErrorsAux field'.errors fr2.errors
        let fr3 := { fr2 with errors := be.1 }
        if be.2 then frameValidateAux pandas_data rest fr3 else (fr3, false)

/-- `PandasValidationFrame.validate(pandas_data)`; the `Bool` is `true` when
no `KeyError` escaped `bind_errors`. -/
def PandasValidationFrame.validate (fr : PandasValidationFrame)
    (pandas_data : DFrame) : PandasValidationFrame × Bool :=
  let fr1 := { fr with errors := initFrameErrors fr.errors pandas_data.rows.length }
  frameValidateAux pandas_data fr1.cached_fields fr1

/-- The form's `self.errors` dict, split by key kind: integer row keys in
`rows`, the `'__all__'` top-level entry in `allList`. -/
structure Errors where
  rows : Dict Nat (Dict String (List ErrMsg))
  allList : Option (List ErrMsg)
  deriving DecidableEq

def Errors.empty : Errors := ⟨[], none⟩

/-- The per-class configuration of a `PandasForm` subclass: `Meta.fields`,
the `handle_default` override, and the `clean_<field>` hooks (resolved by
field name, as `getattr(self, f'clean_…')` does).  A hook reads
`self.row_data` (the row cleaned so far) and either returns the cleaned
value or raises `ValidationError`. -/
structure FormConfig where
  fields : List String
  handle_default : String → Value
  hooks : String → Option (Dict String Value → Except ErrMsg Value)

/-- The mutable state of a `PandasForm` instance. -/
structure PandasForm where
  cached_valid : Option Bool
  data : List PRow
  schema : Option PandasValidationFrame
  pandas_data : Option DFrame
  errors : Errors
  cleaned_data : Dict Nat (Dict String Value)
  row_data : Dict String Value
  deriving DecidableEq

/-- `PandasForm.__init__(data)`: note `cached_valid` starts as `True`. -/
def PandasForm.init (data : List PRow) : PandasForm :=
  { cached_valid := some true
    data := data
    schema := none
    pandas_data := none
    errors := Errors.empty
    cleaned_data := []
    row_data := [] }

/-- The default-then-raw part of one field's cleaning:
`cleaned_data[idx][item] = handle_default(item)`, then the raw value if it
is present and truthy. -/
def preHookData (cfg : FormConfig) (values : PRow)
    (cd : Dict String Value) (item : String) : Dict String Value :=
  let cd1 := cd.set item (cfg.handle_default item)
  match values.get item with
  | some v => if truthy v then cd1.set item v else cd1
  | none => cd1

/-- One field of the inner cleaning loop: default, raw override, then the
optional `clean_<item>` hook (which sees the row cleaned so far);
a raised `ValidationError` leaves the pre-hook value in place and is
returned as `some`. -/
def cleanField (cfg : FormConfig) (values : PRow)
    (cd : Dict String Value) (item : String) :
    Dict String Value × Option ErrMsg :=
  let cd2 := preHookData cfg values cd item
  match cfg.hooks item with
  | none => (cd2, none)
  | some f =>
      match f cd2 with
      | .ok v => (cd2.set item v, none)
      | .error e => (cd2, some e)

/-- The `except ValidationError` arm of `_clean_data`: record the error at
`errors[idx][item]` with the append-or-create discipline. -/
def recordCleanError (errs : Errors) (idx : Nat) (item : String)
    (e : ErrMsg) : Errors :=
  let m := (errs.rows.get idx).getD []
  let m' :=
    match m.get item with
    | some l => m.set item (l ++ [e])
    | none => m.set item [e]
  { errs with rows := errs.rows.set idx m' }

/-- The `for item in self.fields` loop of `_clean_data` for one row. -/
def cleanFields (cfg : FormConfig) (values : PRow) (idx : Nat) :
    List String → Dict String Value × Errors × Option Bool →
    Dict String Value × Errors × Option Bool
  | [], acc => acc
  | item :: rest, (cd, errs, cv) =>
      match cleanField cfg values cd item with
      | (cd', none) => cleanFields cfg values idx rest (cd', errs, cv)
      | (cd', some e) =>
          cleanFields cfg values idx rest
            (cd', recordCleanError errs idx item e, some false)

/-- The `for idx, values in enumerate(self.data)` loop of `_clean_data`. -/
def cleanRows (cfg : FormConfig) :
    List PRow → Nat →
    Dict Nat (Dict String Value) × Errors × Option Bool →
    Dict Nat (Dict String Value) × Errors × Option Bool
  | [], _, acc => acc
  | values :: rest, idx, (cds, errs, cv) =>
      let r := cleanFields cfg values idx cfg.fields ([], errs, cv)
      cleanRows cfg rest (idx + 1) (cds.set idx r.1, r.2.1, r.2.2)

/-- `PandasForm._clean_data()`. -/
def PandasForm.clean_data (cfg : FormConfig) (st : PandasForm) : PandasForm :=
  let errs0 : Errors :=
    match st.schema with
    | some fr => ⟨fr.errors, none⟩
    | none => Errors.empty
  let r := cleanRows cfg st.data 0 ([], errs0, st.cached_valid)
  { st with
      cleaned_data := r.1
      errors := r.2.1
      cached_valid := r.2.2
      row_data := [] }

/-- `PandasForm.add_error(field, error, row=None)`.  `row` is tested for
truthiness, so `row=0` behaves like `row=None`; in that branch the literal
key `'__all__'` is used and the field name is ignored. -/
def PandasForm.add_error (st : PandasForm) (field : String) (error : ErrMsg)
    (row : Option Nat) : PandasForm :=
  let curr_field := if field = "" then "__all__" else field
  let pushAll : PandasForm :=
    { st with
        errors :=
          { st.errors with
              allList := some ((st.errors.allList).getD [] ++ [error]) } }
  match row with
  | none => pushAll
  | some n =>
      if n = 0 then pushAll
      else
        let m := (st.errors.rows.get n).getD []
        let m' :=
          match m.get curr_field with
          | some l => m.set curr_field (l ++ [error])
          | none => m.set curr_field [error]
        { st with errors := { st.errors with rows := st.errors.rows.set n m' } }

/-- What `is_valid()` evaluates to: a Python boolean, Python `None`
(`schema.valid and self.cached_valid` when `cached_valid` is `None`), or an
uncaught exception from `schema.validate`. -/
inductive PyRet where
  | vBool (b : Bool) : PyRet
  | vNone : PyRet
  | crash : PyRet
  deriving DecidableEq

/-- `PandasForm.is_valid()`: the returned value, the state after the call,
and whether the cleaning/validation body ran at all (instrumentation for
the memoization claim). -/
def PandasForm.is_valid (cfg : FormConfig) (st : PandasForm) :
    PyRet × PandasForm × Bool :=
  match st.cached_valid with
  | some b => (.vBool b, st, false)
  | none =>
      let st1 := st.clean_data cfg
      match st1.schema with
      | none => (.vBool false, st1, true)
      | some fr =>
          let df := mkDFrame st1.cleaned_data.values
          let vr := fr.validate df
          let st2 := { st1 with schema := some vr.1, pandas_data := some df }
          if vr.2 = false then (.crash, st2, true)
          else if vr.1.valid = false then (.vBool false, st2, true)
          else
            match st2.cached_valid with
            | some b => (.vBool b, st2, true)
            | none => (.vNone, st2, true)

/-- The operations a caller can perform on a form instance. -/
inductive FormOp where
  | addErrorOp (field : String) (err : ErrMsg) (row : Option Nat) : FormOp
  | cleanDataOp : FormOp
  | isValidOp : FormOp
  deriving DecidableEq

def FormOp.isCleanOp : FormOp → Bool
  | .cleanDataOp => true
  | _ => false

def stepOp (cfg : FormConfig) (st : PandasForm) : FormOp → PandasForm
  | .addErrorOp f e r => st.add_error f e r
  | .cleanDataOp => st.clean_data cfg
  | .isValidOp => (st.is_valid cfg).2.1

def runOps (cfg : FormConfig) (st : PandasForm) (ops : List FormOp) :
    PandasForm :=
  ops.foldl (stepOp cfg) st

/-- Whether cleaning the row `values` raises a `ValidationError` for some
field (this depends only on the config and the raw row, not on the error
map or the cached flag). -/
def rowHasErr (cfg : FormConfig) (values : PRow) :
    List String → Dict String Value → Bool
  | [], _ => false
  | item :: rest, cd =>
      match cleanField cfg values cd item with
      | (cd', oe) => oe.isSome || rowHasErr cfg values rest cd'

/-- Whether a full `_clean_data` pass over `data` records any row-level
hook error. -/
def hasCleanErr (cfg : FormConfig) (data : List PRow) : Bool :=
  data.any (fun values => rowHasErr cfg values cfg.fields [])

/-- A trivial concrete config: no fields, no defaults, no hooks. -/
def cfgEmpty : FormConfig :=
  { fields := []
    handle_default := fun _ => .vnull
    hooks := fun _ => none }

/-- A hook that always raises a `ValidationError`. -/
def hookBoom : Dict String Value → Except ErrMsg Value :=
  fun _ => .error "boom"

/-- A concrete config with one field whose hook always raises. -/
def cfgHook : FormConfig :=
  { fields := ["total"]
    handle_default := fun _ => .vnull
    hooks := fun s => if s = "total" then some hookBoom else none }

/-- The error list stored at `self.errors[n][f]` of a form (empty when the
nested keys are absent). -/
def formCellErrors (st : PandasForm) (n : Nat) (f : String) : List ErrMsg :=
  (((st.errors.rows.get n).getD []).get f).getD []

/-- The error list stored at `errors[i][name]` of a column / frame error
map (empty when the nested keys are absent). -/
def cellAt (errs : Dict Nat (Dict String (List ErrMsg))) (i : Nat)
    (name : String) : List ErrMsg :=
  (((errs.get i).getD []).get name).getD []

/-- Whether the enumeration of `check.validate(df, nullable=nb)` makes
`handle_error` fire at index `i`. -/
def checkFalsyAt (c : FieldCheck) (df : DFrame) (nb : Bool) (i : Nat) :
    Bool :=
  ((c.validate df nb).enumFalsy).getD i false

/-- The per-row pass predicate of a check in the non-nullable branch. -/
def FieldCheck.passPred : FieldCheck → Value → Bool
  | .isInCheck _ lst, v => lst.contains v
  | .lengthCheck _ L, v => lenLe v L

/-- The error messages contributed at absolute index `i` by the enumeration
loop run over `bs` starting at enumeration index `k`. -/
def contribAt (bs : List Bool) (k i : Nat) (msg : ErrMsg) : List ErrMsg :=
  if i < k then [] else if bs.getD (i - k) false then [msg] else []

theorem Dict.get_set_self {K V : Type} [DecidableEq K]
    (d : Dict K V) (k : K) (v : V) : (d.set k v).get k = some v := by
  induction d with
  | nil => simp [Dict.set, Dict.get]
  | cons hd tl ih =>
      by_cases h : hd.1 = k
      · simp [Dict.set, Dict.get, h]
      · simp [Dict.set, Dict.get, h, ih]

theorem Dict.get_set_ne {K V : Type} [DecidableEq K]
    (d : Dict K V) (k k' : K) (v : V) (h : k ≠ k') :
    (d.set k v).get k' = d.get k' := by
  induction d with
  | nil => simp [Dict.set, Dict.get, h]
  | cons hd tl ih =>
      by_cases h0 : hd.1 = k
      · subst h0
        simp [Dict.set, Dict.get, h]
      · simp [Dict.set, Dict.get, h0, ih]

theorem Dict.isSome_get_set {K V : Type} [DecidableEq K]
    (d : Dict K V) (k k' : K) (v : V) (h : (d.get k').isSome) :
    ((d.set k v).get k').isSome := by
  by_cases hk : k = k'
  · subst hk
    simp [Dict.get_set_self]
  · rwa [Dict.get_set_ne d k k' v hk]

theorem dfCol_length (df : DFrame) (name : String) :
    (dfCol df name).length = df.rows.length := by
  simp [dfCol]

theorem zipWith_map_same {α β γ : Type} (f : β → β → γ) (g h : α → β)
    (l : List α) :
    List.zipWith f (l.map g) (l.map h) = l.map (fun x => f (g x) (h x)) := by
  induction l with
  | nil => rfl
  | cons hd tl ih => simp [ih]

theorem handle_error_preserve (col : PandasValidationColumn)
    (c : FieldCheck) (j : Nat) :
    (col.handle_error c j).name = col.name ∧
    (col.handle_error c j).nullable = col.nullable ∧
    (col.handle_error c j).checks = col.checks := by
  unfold PandasValidationColumn.handle_error
  rcases h : col.errors.get j with _ | m
  · simp [h]
  · rcases h2 : m.get col.name with _ | l <;> simp [h, h2]

theorem cellAt_handle_error (col : PandasValidationColumn) (c : FieldCheck)
    (j i : Nat) :
    cellAt (col.handle_error c j).errors i col.name =
      if i = j then cellAt col.errors i col.name ++ [c.get_error]
      else cellAt col.errors i col.name := by
  by_cases hij : i = j
  · subst hij
    rcases h : col.errors.get i with _ | m
    · simp [PandasValidationColumn.handle_error, cellAt, h,
        Dict.get_set_self, Dict.get]
    · rcases h2 : m.get col.name with _ | l <;>
        simp [PandasValidationColumn.handle_error, cellAt, h, h2,
          Dict.get_set_self]
  · have hji : j ≠ i := fun hh => hij hh.symm
    rcases h : col.errors.get j with _ | m
    · simp [PandasValidationColumn.handle_error, cellAt, h, hij,
        Dict.get_set_ne _ _ _ _ hji]
    · rcases h2 : m.get col.name with _ | l <;>
        simp [PandasValidationColumn.handle_error, cellAt, h, h2, hij,
          Dict.get_set_ne _ _ _ _ hji]

theorem runCheckLoop_preserve (check : FieldCheck) (bs : List Bool) :
    ∀ (k : Nat) (col : PandasValidationColumn),
    (runCheckLoop col check bs k).name = col.name ∧
    (runCheckLoop col check bs k).nullable = col.nullable ∧
    (runCheckLoop col check bs k).checks = col.checks := by
  induction bs with
  | nil => exact fun k col => ⟨rfl, rfl, rfl⟩
  | cons b rest ih =>
      intro k col
      cases b
      · simpa [runCheckLoop] using ih (k + 1) col
      · have h1 := handle_error_preserve col check k
        have h2 := ih (k + 1) (col.handle_error check k)
        refine ⟨?_, ?_, ?_⟩ <;>
          simp [runCheckLoop, h1.1, h1.2.1, h1.2.2, h2.1, h2.2.1, h2.2.2]

theorem contribAt_cons (b : Bool) (rest : List Bool) (k i : Nat)
    (msg : ErrMsg) :
    contribAt (b :: rest) k i msg =
      (if i = k ∧ b then [msg] else []) ++ contribAt rest (k + 1) i msg := by
  unfold contribAt
  rcases Nat.lt_trichotomy i k with h | h | h
  · have h1 : i < k + 1 := by omega
    have h2 : ¬ i = k := by omega
    simp [h, h1, h2]
  · subst h
    have h1 : ¬ i < i := by omega
    have h2 : i < i + 1 := by omega
    simp [h1, h2, Nat.sub_self]
  · have h1 : ¬ i < k := by omega
    have h2 : ¬ i < k + 1 := by omega
    have h3 : i - k = (i - (k + 1)) + 1 := by omega
    have h4 : ¬ i = k := by omega
    simp [h1, h2, h3, h4]

theorem runCheckLoop_cellAt (check : FieldCheck) (i : Nat) (bs : List Bool) :
    ∀ (k : Nat) (col : PandasValidationColumn),
    cellAt (runCheckLoop col check bs k).errors i col.name =
      cellAt col.errors i col.name ++ contribAt bs k i check.get_error := by
  induction bs with
  | nil => intro k col; simp [runCheckLoop, contribAt]
  | cons b rest ih =>
      intro k col
      rw [contribAt_cons]
      cases b
      · rw [show runCheckLoop col check (false :: rest) k =
            runCheckLoop col check rest (k + 1) from rfl]
        rw [ih (k + 1) col]
        simp
      · have hname := (handle_error_preserve col check k).1
        have hrec := ih (k + 1) (col.handle_error check k)
        rw [hname] at hrec
        rw [show runCheckLoop col check (true :: rest) k =
            runCheckLoop (col.handle_error check k) check rest (k + 1) from rfl]
        rw [hrec, cellAt_handle_error]
        by_cases hik : i = k <;> simp [hik, List.append_assoc]

theorem runCheck_cellAt (col : PandasValidationColumn) (check : FieldCheck)
    (df : DFrame) (i : Nat) :
    cellAt (runCheck col check df).errors i col.name =
      cellAt col.errors i col.name ++
        (if checkFalsyAt check df col.nullable i then [check.get_error]
         else []) := by
  unfold runCheck checkFalsyAt
  rw [runCheckLoop_cellAt]
  simp [contribAt]

theorem runCheck_preserve (col : PandasValidationColumn)
    (check : FieldCheck) (df : DFrame) :
    (runCheck col check df).name = col.name ∧
    (runCheck col check df).nullable = col.nullable ∧
    (runCheck col check df).checks = col.checks := by
  unfold runCheck
  exact runCheckLoop_preserve check _ 0 col

theorem colValidateAux_cellAt (df : DFrame) (i : Nat) :
    ∀ (cs : List FieldCheck) (col : PandasValidationColumn),
    cellAt (colValidateAux df cs col).errors i col.name =
      cellAt col.errors i col.name ++
        cs.filterMap
          (fun c =>
            if checkFalsyAt c df col.nullable i then some c.get_error
            else none) := by
  intro cs
  induction cs with
  | nil => intro col; simp [colValidateAux]
  | cons c rest ih =>
      intro col
      have hp := runCheck_preserve col c df
      have hrec := ih (runCheck col c df)
      rw [hp.1, hp.2.1] at hrec
      rw [colValidateAux, hrec, runCheck_cellAt]
      by_cases hf : checkFalsyAt c df col.nullable i = true <;>
        simp [hf, List.filterMap_cons, List.append_assoc]

/-- C1: the spec's fail-closed rule — with no schema of column validators
attached, `is_valid()` is supposed to be always false.  The code instead
initializes `cached_valid` to `True`, so the very first `is_valid()` call
returns `True` without running anything: the fail-closed `return False`
is unreachable.  This theorem evaluates the embedded code at the failing
input. -/
theorem c1_no_rules_is_valid_returns_true :
    (PandasForm.init []).schema = none ∧
    (PandasForm.is_valid cfgEmpty (PandasForm.init [])).1 = PyRet.vBool true := by
  exact ⟨rfl, rfl⟩

/-- C2 counterexample: `add_error("email", …, row=0)` twice does NOT leave
both messages at row 0's `"email"` list — `row` is tested for truthiness,
`0` is falsy, so no row-0 entry is ever created and both messages land in
the top-level `'__all__'` list instead. -/
theorem c2_add_error_row_zero_counterexample :
    ((((PandasForm.init []).add_error "email" "bad format" (some 0)).add_error
        "email" "also bad" (some 0)).errors.rows.get 0 = none) ∧
    ((((PandasForm.init []).add_error "email" "bad format" (some 0)).add_error
        "email" "also bad" (some 0)).errors.allList =
      some ["bad format", "also bad"]) := by
  exact ⟨by decide, by decide⟩

/-- C2 (amended): for a truthy (nonzero) row index and a nonempty field
name, `add_error(field, error, row)` appends the error to the list at
`errors[row][field]`, creating the nested maps as needed and preserving the
existing messages in order; for row index 0 (falsy in Python), the error is
appended to the top-level `'__all__'` list and the field name is ignored. -/
theorem c2_add_error_append_amended :
    (∀ (st : PandasForm) (f : String) (e : ErrMsg) (n : Nat),
        n ≠ 0 → f ≠ "" →
        formCellErrors (st.add_error f e (some n)) n f =
          formCellErrors st n f ++ [e]) ∧
    (formCellErrors
        (((PandasForm.init []).add_error "email" "bad format" (some 1)).add_error
          "email" "also bad" (some 1)) 1 "email" =
      ["bad format", "also bad"]) ∧
    ((((PandasForm.init []).add_error "email" "bad format" (some 0)).errors.allList) =
      some ["bad format"]) := by
  refine ⟨?_, by decide, by decide⟩
  intro st f e n hn hf
  rcases hg : ((st.errors.rows.get n).getD []).get f with _ | l <;>
    simp [PandasForm.add_error, formCellErrors, hn, hf, hg, Dict.get_set_self]

/-- Witness for the amended C2 theorem at row 1, field `"email"`. -/
theorem c2_add_error_append_witness :
    (1 : Nat) ≠ 0 ∧ "email" ≠ "" ∧
    formCellErrors ((PandasForm.init []).add_error "email" "bad" (some 1)) 1
        "email" =
      formCellErrors (PandasForm.init []) 1 "email" ++ ["bad"] :=
  ⟨by decide, by decide,
    c2_add_error_append_amended.1 (PandasForm.init []) "email" "bad" 1
      (by decide) (by decide)⟩

/-- C5 counterexample: with the nullable option set, `validate` does not
return an N-entry pass/fail vector.  It returns the boolean-mask-filtered
DataFrame `df[mask]`, and enumerating a DataFrame visits its column labels:
on a 3-row, 1-column dataset the consumer's enumeration has 1 entry, not 3. -/
theorem c5_nullable_vector_counterexample :
    (((FieldCheck.isInCheck "code" []).validate
          (mkDFrame [[("code", Value.vint 1)], [("code", Value.vint 3)],
            [("code", Value.vint 2)]]) true).enumFalsy).length = 1 ∧
    (mkDFrame [[("code", Value.vint 1)], [("code", Value.vint 3)],
      [("code", Value.vint 2)]]).rows.length = 3 := by
  exact ⟨by decide, by decide⟩

/-- C5 (amended): when the nullable option is unset, each check variant's
`validate` returns a pass/fail vector with exactly one entry per row, entry
`i` being the check's per-row predicate on row `i`'s value in the check's
column; when nullable is set, `validate` returns a filtered DataFrame whose
enumeration visits the column labels (one entry per column, not per row). -/
theorem c5_validate_vector_amended (c : FieldCheck) (df : DFrame) :
    c.validate df false =
      .series ((dfCol df c.field_name).map c.passPred) ∧
    ((c.validate df false).enumFalsy).length = df.rows.length ∧
    ((c.validate df true).enumFalsy).length = df.cols.length := by
  refine ⟨?_, ?_, ?_⟩ <;>
    cases c <;>
      simp [FieldCheck.validate, FieldCheck.field_name, FieldCheck.passPred,
        VResult.enumFalsy, dfFilter, dfCol]

/-- C6: `IsInCheck.validate` with nullable unset marks row `i` as passing
exactly when its value in the check's column is a member of the candidate
list; with nullable set, the per-row selection predicate is the logical AND
of the membership test and the is-null test (the rows of `df[mask]` are
exactly those where both hold).  Scenario: 3 rows, column `"code"`,
candidates `[1, 2]`, values `[1, 3, 2]`, no nullable option → only row 1 is
recorded as invalid for `"code"` and the frame's verdict is invalid. -/
theorem c6_isin_semantics :
    (∀ (fn : String) (lst : List Value) (df : DFrame),
        (FieldCheck.isInCheck fn lst).validate df false =
          .series ((dfCol df fn).map (fun v => lst.contains v))) ∧
    (∀ (fn : String) (lst : List Value) (df : DFrame),
        (FieldCheck.isInCheck fn lst).validate df true =
          .frame (dfFilter df
            ((dfCol df fn).map (fun v => lst.contains v && isnullB v)))) ∧
    ((((⟨[("code",
          ⟨"code", [.isInCheck "code" [Value.vint 1, Value.vint 2]], [],
            false, false⟩)], [], true⟩ :
        PandasValidationFrame).validate
        (mkDFrame [[("code", Value.vint 1)], [("code", Value.vint 3)],
          [("code", Value.vint 2)]])).1.valid = false) ∧
      (((⟨[("code",
            ⟨"code", [.isInCheck "code" [Value.vint 1, Value.vint 2]], [],
              false, false⟩)], [], true⟩ :
          PandasValidationFrame).validate
          (mkDFrame [[("code", Value.vint 1)], [("code", Value.vint 3)],
            [("code", Value.vint 2)]])).1.errors =
        [(0, []),
         (1, [("code", [(FieldCheck.isInCheck "code" []).get_error])]),
         (2, [])])) := by
  refine ⟨?_, ?_, by decide, by decide⟩
  · intro fn lst df
    rfl
  · intro fn lst df
    simp [FieldCheck.validate, zipWith_map_same]

/-- C7 counterexample: with the nullable option set, `LengthCheck`'s
per-row selection predicate is NOT the logical AND of the length comparison
and the is-null test.  Python parses `len <= self.length & isnull` as
`len <= (length & isnull)`, so a non-null empty string passes
(`0 <= 5 &&& 0`) while the claimed AND would fail it (it is not null). -/
theorem c7_length_nullable_counterexample :
    ((FieldCheck.lengthCheck "name" 5).validate
        (mkDFrame [[("name", Value.vstr "")]]) true =
      .frame (mkDFrame [[("name", Value.vstr "")]])) ∧
    lenNullableMask 5 (Value.vstr "") = true ∧
    (lenLe (Value.vstr "") 5 && isnullB (Value.vstr "")) = false := by
  exact ⟨by decide, by decide, by decide⟩

/-- C7 (amended): with nullable unset, `LengthCheck.validate` marks row `i`
as passing exactly when the string length of its value is ≤ `max_length`
(non-string values have a null length and fail); with nullable set, the
per-row selection predicate is `strLen v ≤ (max_length &&& nullBit)` — the
operator-precedence artifact — not the logical AND of the two tests, and
the result is the filtered DataFrame.  The failure message is parameterized
with `max_length`; in the 2-row scenario with values `["abc", "abcdef"]`
and `max_length = 5`, row 1 fails with the message parameterized with 5. -/
theorem c7_length_semantics_amended :
    (∀ (fn : String) (L : Nat) (df : DFrame),
        (FieldCheck.lengthCheck fn L).validate df false =
          .series ((dfCol df fn).map (fun v => lenLe v L))) ∧
    (∀ (fn : String) (L : Nat) (df : DFrame),
        (FieldCheck.lengthCheck fn L).validate df true =
          .frame (dfFilter df ((dfCol df fn).map (lenNullableMask L)))) ∧
    (∀ (fn : String) (L : Nat),
        (FieldCheck.lengthCheck fn L).get_error =
          "Komórka przekracza maksymalną długość (" ++ toString L ++
            " znaków)!") ∧
    (((⟨"name", [.lengthCheck "name" 5], [], false, false⟩ :
        PandasValidationColumn).validate
        (mkDFrame [[("name", Value.vstr "abc")],
          [("name", Value.vstr "abcdef")]])).errors =
      [(1, [("name",
        ["Komórka przekracza maksymalną długość (5 znaków)!"])])]) := by
  exact ⟨fun fn L df => rfl, fun fn L df => rfl, fun fn L => rfl, by decide⟩

/-- C9: `PandasValidationColumn.validate` runs every check with no early
exit; the error list accumulated at `(row index i, column name)` is the
previous content followed by the `get_error` messages of exactly those
checks whose enumeration fires at index `i`, in check-declaration order.
Scenario: a column with two checks both failing row 0 of a 1-row dataset
ends with exactly the two messages, in declaration order. -/
theorem c9_check_accumulation :
    (∀ (col : PandasValidationColumn) (df : DFrame) (i : Nat),
        cellAt (col.validate df).errors i col.name =
          cellAt col.errors i col.name ++
            col.checks.filterMap
              (fun c =>
                if checkFalsyAt c df col.nullable i then some c.get_error
                else none)) ∧
    ((((⟨"x", [.lengthCheck "x" 1, .isInCheck "x" []], [], false, false⟩ :
        PandasValidationColumn).validate
        (mkDFrame [[("x", Value.vstr "xx")]])).errors) =
      [(0, [("x",
        [(FieldCheck.lengthCheck "x" 1).get_error,
         (FieldCheck.isInCheck "x" []).get_error])])]) := by
  refine ⟨?_, by decide⟩
  intro col df i
  unfold PandasValidationColumn.validate
  exact colValidateAux_cellAt df i col.checks col

theorem ensureKey_isSome_preserve (e : Dict Nat (Dict String (List ErrMsg)))
    (v i : Nat) (h : (e.get i).isSome = true) :
    ((ensureKey e v).get i).isSome = true := by
  unfold ensureKey
  split
  · exact h
  · exact Dict.isSome_get_set _ _ _ _ h

theorem ensureKey_isSome_self (e : Dict Nat (Dict String (List ErrMsg)))
    (v : Nat) : ((ensureKey e v).get v).isSome = true := by
  unfold ensureKey
  split
  · assumption
  · simp [Dict.get_set_self]

theorem foldl_ensureKey_preserve (l : List Nat) :
    ∀ (e : Dict Nat (Dict String (List ErrMsg))) (i : Nat),
    (e.get i).isSome = true → ((l.foldl ensureKey e).get i).isSome = true := by
  induction l with
  | nil => exact fun e i h => h
  | cons hd tl ih =>
      exact fun e i h => ih _ i (ensureKey_isSome_preserve e hd i h)

theorem foldl_ensureKey_mem (l : List Nat) :
    ∀ (e : Dict Nat (Dict String (List ErrMsg))) (i : Nat),
    i ∈ l → ((l.foldl ensureKey e).get i).isSome = true := by
  induction l with
  | nil => intro e i h; cases h
  | cons hd tl ih =>
      intro e i h
      rcases List.mem_cons.mp h with h1 | h1
      · subst h1
        exact foldl_ensureKey_preserve tl _ i (ensureKey_isSome_self e i)
      · exact ih _ i h1

theorem initFrameErrors_isSome (errs : Dict Nat (Dict String (List ErrMsg)))
    (n i : Nat) (h : i < n) :
    ((initFrameErrors errs n).get i).isSome = true := by
  unfold initFrameErrors
  exact foldl_ensureKey_mem _ _ _ (List.mem_range.mpr h)

theorem bindErrorsAux_isSome
    (ces : List (Nat × Dict String (List ErrMsg))) :
    ∀ (fe : Dict Nat (Dict String (List ErrMsg))) (i : Nat),
    (fe.get i).isSome = true →
    (((bindErrorsAux ces fe).1).get i).isSome = true := by
  induction ces with
  | nil => exact fun fe i h => h
  | cons p rest ih =>
      intro fe i h
      obtain ⟨idx, curr⟩ := p
      rcases hg : fe.get idx with _ | m
      · simp [bindErrorsAux, hg]
        exact h
      · simp only [bindErrorsAux, hg]
        exact ih _ i (Dict.isSome_get_set _ _ _ _ h)

theorem frameValidateAux_isSome (df : DFrame) :
    ∀ (flds : List (String × PandasValidationColumn))
      (fr : PandasValidationFrame) (i : Nat),
    (fr.errors.get i).isSome = true →
    ((((frameValidateAux df flds fr).1).errors.get i).isSome) = true := by
  intro flds
  induction flds with
  | nil => exact fun fr i h => h
  | cons p rest ih =>
      intro fr i h
      obtain ⟨name, field⟩ := p
      rw [frameValidateAux]
      by_cases he : (field.validate df).errors = []
      · simp only [he, if_pos rfl]
        exact ih _ i h
      · simp only [if_neg he]
        by_cases hb : (bindErrorsAux (field.validate df).errors
            { fr with cached_fields := fr.cached_fields.set name (field.validate df),
                      valid := false }.errors).2 = true
        · simp only [hb, if_pos rfl]
          exact ih _ i (bindErrorsAux_isSome _ _ i h)
        · simp only [Bool.not_eq_true] at hb
          simp only [hb]
          exact bindErrorsAux_isSome _ _ i h

/-- C8: after `PandasValidationFrame.validate` runs on a dataset of N rows,
the merged error map has an entry for every row index `0 ≤ i < N` (the
init loop creates an empty entry for each missing index before any column
runs, and later merging only adds entries). -/
theorem c8_dense_error_map (fr : PandasValidationFrame) (df : DFrame)
    (i : Nat) (h : i < df.rows.length) :
    ((((fr.validate df).1).errors.get i).isSome) = true := by
  unfold PandasValidationFrame.validate
  exact frameValidateAux_isSome df _ _ i (initFrameErrors_isSome _ _ _ h)

/-- Witness for C8 on a concrete 1-row dataset and an empty frame. -/
theorem c8_dense_error_map_witness :
    0 < (mkDFrame [[("a", Value.vint 1)]]).rows.length ∧
    ((((⟨[], [], true⟩ : PandasValidationFrame).validate
        (mkDFrame [[("a", Value.vint 1)]])).1).errors.get 0).isSome = true :=
  ⟨by decide,
    c8_dense_error_map ⟨[], [], true⟩ (mkDFrame [[("a", Value.vint 1)]]) 0
      (by decide)⟩

theorem is_valid_of_cached (cfg : FormConfig) (st : PandasForm) (b : Bool)
    (h : st.cached_valid = some b) :
    st.is_valid cfg = (.vBool b, st, false) := by
  unfold PandasForm.is_valid
  rw [h]

/-- C4: `is_valid()` on any instance whose `cached_valid` holds a boolean
(every constructed instance: `__init__` sets it to `True` and no operation
ever clears it) returns that boolean, leaves the state untouched and never
runs cleaning or column validation; a second call returns the identical
boolean, again without running anything. -/
theorem c4_is_valid_idempotent (cfg : FormConfig) (st : PandasForm)
    (b : Bool) (h : st.cached_valid = some b) :
    st.is_valid cfg = (.vBool b, st, false) ∧
    ((st.is_valid cfg).2.1).is_valid cfg = (.vBool b, st, false) := by
  have h1 := is_valid_of_cached cfg st b h
  refine ⟨h1, ?_⟩
  rw [h1]
  exact h1

/-- Witness for C4 on a freshly constructed empty form. -/
theorem c4_is_valid_idempotent_witness :
    (PandasForm.init []).cached_valid = some true ∧
    ((PandasForm.init []).is_valid cfgEmpty =
        (.vBool true, PandasForm.init [], false) ∧
      (((PandasForm.init []).is_valid cfgEmpty).2.1).is_valid cfgEmpty =
        (.vBool true, PandasForm.init [], false)) :=
  ⟨rfl, c4_is_valid_idempotent cfgEmpty (PandasForm.init []) true rfl⟩

theorem preHookData_get (cfg : FormConfig) (values : PRow)
    (cd : Dict String Value) (item : String) :
    (preHookData cfg values cd item).get item =
      some (match values.get item with
            | some v => if truthy v then v else cfg.handle_default item
            | none => cfg.handle_default item) := by
  unfold preHookData
  rcases h : values.get item with _ | v
  · simp [h, Dict.get_set_self]
  · by_cases ht : truthy v <;> simp [h, ht, Dict.get_set_self]

theorem cleanFields_append (cfg : FormConfig) (values : PRow) (idx : Nat)
    (fs1 fs2 : List String)
    (acc : Dict String Value × Errors × Option Bool) :
    cleanFields cfg values idx (fs1 ++ fs2) acc =
      cleanFields cfg values idx fs2 (cleanFields cfg values idx fs1 acc) := by
  induction fs1 generalizing acc with
  | nil => rfl
  | cons item rest ih =>
      obtain ⟨cd, errs, cv⟩ := acc
      simp only [List.cons_append, cleanFields]
      rcases hcf : cleanField cfg values cd item with ⟨cd', oe⟩
      cases oe <;> simp [hcf, ih]

theorem cleanRows_keys (cfg : FormConfig) :
    ∀ (data : List PRow) (k : Nat)
      (acc : Dict Nat (Dict String Value) × Errors × Option Bool) (i : Nat),
    ((acc.1.get i).isSome = true ∨ (k ≤ i ∧ i < k + data.length)) →
    (((cleanRows cfg data k acc).1).get i).isSome = true := by
  intro data
  induction data with
  | nil =>
      intro k acc i h
      rcases h with h | h
      · exact h
      · simp at h
        omega
  | cons values rest ih =>
      intro k acc i h
      obtain ⟨cds, errs, cv⟩ := acc
      rw [cleanRows]
      apply ih
      rcases h with h | h
      · exact Or.inl (Dict.isSome_get_set _ _ _ _ h)
      · by_cases hik : i = k
        · subst hik
          exact Or.inl (by simp [Dict.get_set_self])
        · refine Or.inr ⟨by omega, by simp at h ⊢; omega⟩

/-- C10: when a field's `clean_<field>` hook raises a `ValidationError`,
the cleaned-data entry for that field keeps the value assigned before the
hook ran — the raw value if present and truthy, otherwise the resolved
default — and cleaning continues with the remaining fields of the row and
with the remaining rows (every row index still gets a cleaned entry). -/
theorem c10_hook_failure_preserves_value :
    (∀ (cfg : FormConfig) (values : PRow) (cd : Dict String Value)
        (item : String) (f : Dict String Value → Except ErrMsg Value)
        (e : ErrMsg),
        cfg.hooks item = some f →
        f (preHookData cfg values cd item) = .error e →
        cleanField cfg values cd item =
          (preHookData cfg values cd item, some e)) ∧
    (∀ (cfg : FormConfig) (values : PRow) (cd : Dict String Value)
        (item : String),
        (preHookData cfg values cd item).get item =
          some (match values.get item with
                | some v => if truthy v then v else cfg.handle_default item
                | none => cfg.handle_default item)) ∧
    (∀ (cfg : FormConfig) (values : PRow) (idx : Nat)
        (fs1 fs2 : List String)
        (acc : Dict String Value × Errors × Option Bool),
        cleanFields cfg values idx (fs1 ++ fs2) acc =
          cleanFields cfg values idx fs2 (cleanFields cfg values idx fs1 acc)) ∧
    (∀ (cfg : FormConfig) (st : PandasForm) (i : Nat),
        i < st.data.length →
        (((st.clean_data cfg).cleaned_data).get i).isSome = true) := by
  refine ⟨?_, preHookData_get, cleanFields_append, ?_⟩
  · intro cfg values cd item f e h1 h2
    simp only [cleanField, h1, h2]
  · intro cfg st i h
    unfold PandasForm.clean_data
    exact cleanRows_keys cfg st.data 0 _ i (Or.inr ⟨Nat.zero_le i, by omega⟩)

/-- Witness for C10: a concrete config whose `"total"` hook always raises;
the cleaned cell keeps the pre-hook (default) value, the split cleaning
runs both halves, and the 1-row form gets its cleaned entry. -/
theorem c10_hook_failure_witness :
    (cfgHook.hooks "total" = some hookBoom ∧
      hookBoom (preHookData cfgHook [] [] "total") = .error "boom" ∧
      cleanField cfgHook [] [] "total" =
        (preHookData cfgHook [] [] "total", some "boom")) ∧
    ((preHookData cfgHook [] [] "total").get "total" = some Value.vnull) ∧
    (cleanFields cfgHook [] 0 (["a"] ++ ["b"]) ([], Errors.empty, some true) =
      cleanFields cfgHook [] 0 ["b"]
        (cleanFields cfgHook [] 0 ["a"] ([], Errors.empty, some true))) ∧
    (0 < (PandasForm.init [[]]).data.length ∧
      ((((PandasForm.init [[]]).clean_data cfgHook).cleaned_data).get 0).isSome =
        true) :=
  ⟨⟨rfl, rfl,
      c10_hook_failure_preserves_value.1 cfgHook [] [] "total" hookBoom "boom"
        rfl rfl⟩,
    c10_hook_failure_preserves_value.2.1 cfgHook [] [] "total",
    c10_hook_failure_preserves_value.2.2.1 cfgHook [] 0 ["a"] ["b"]
      ([], Errors.empty, some true),
    by decide,
    c10_hook_failure_preserves_value.2.2.2 cfgHook (PandasForm.init [[]]) 0
      (by decide)⟩

theorem cleanFields_cv (cfg : FormConfig) (values : PRow) (idx : Nat) :
    ∀ (fields : List String) (cd : Dict String Value) (errs : Errors)
      (cv : Option Bool),
    (cleanFields cfg values idx fields (cd, errs, cv)).2.2 =
      if rowHasErr cfg values fields cd then some false else cv := by
  intro fields
  induction fields with
  | nil => intro cd errs cv; simp [cleanFields, rowHasErr]
  | cons item rest ih =>
      intro cd errs cv
      rcases hcf : cleanField cfg values cd item with ⟨cd', oe⟩
      cases oe <;> simp [cleanFields, rowHasErr, hcf, ih]

theorem cleanRows_cv (cfg : FormConfig) :
    ∀ (data : List PRow) (k : Nat) (cds : Dict Nat (Dict String Value))
      (errs : Errors) (cv : Option Bool),
    (cleanRows cfg data k (cds, errs, cv)).2.2 =
      if data.any (fun values => rowHasErr cfg values cfg.fields [])
      then some false else cv := by
  intro data
  induction data with
  | nil => intro k cds errs cv; simp [cleanRows]
  | cons values rest ih =>
      intro k cds errs cv
      rw [cleanRows]
      rcases hr : cleanFields cfg values k cfg.fields ([], errs, cv)
        with ⟨cd1, errs1, cv1⟩
      have hcv : cv1 = if rowHasErr cfg values cfg.fields [] then some false
          else cv := by
        have := cleanFields_cv cfg values k cfg.fields [] errs cv
        rw [hr] at this
        exact this
      rw [ih (k + 1) _ _ _]
      by_cases h1 : rowHasErr cfg values cfg.fields [] = true <;>
        by_cases h2 : rest.any (fun v => rowHasErr cfg v cfg.fields []) = true <;>
        simp [h1, h2, hcv]

theorem clean_data_state (cfg : FormConfig) (st : PandasForm) :
    (st.clean_data cfg).data = st.data ∧
    (st.clean_data cfg).schema = st.schema ∧
    (st.clean_data cfg).cached_valid =
      (if hasCleanErr cfg st.data then some false else st.cached_valid) := by
  refine ⟨rfl, rfl, ?_⟩
  unfold PandasForm.clean_data hasCleanErr
  exact cleanRows_cv cfg st.data 0 [] _ st.cached_valid

theorem add_error_preserve (st : PandasForm) (f : String) (e : ErrMsg)
    (r : Option Nat) :
    (st.add_error f e r).cached_valid = st.cached_valid ∧
    (st.add_error f e r).data = st.data ∧
    (st.add_error f e r).schema = st.schema := by
  unfold PandasForm.add_error
  rcases r with _ | n
  · exact ⟨rfl, rfl, rfl⟩
  · by_cases hn : n = 0
    · simp only [hn, if_pos rfl]
      exact ⟨rfl, rfl, rfl⟩
    · simp only [if_neg hn]
      rcases hg : ((st.errors.rows.get n).getD []).get
          (if f = "" then "__all__" else f) with _ | l <;>
        simp [hg]

theorem runOps_inv (cfg : FormConfig) :
    ∀ (ops : List FormOp) (st : PandasForm) (b : Bool),
    st.schema = none → st.cached_valid = some b →
    (runOps cfg st ops).data = st.data ∧
    (runOps cfg st ops).schema = none ∧
    (runOps cfg st ops).cached_valid =
      some (b && !(ops.any FormOp.isCleanOp && hasCleanErr cfg st.data)) := by
  intro ops
  induction ops with
  | nil =>
      intro st b h1 h2
      refine ⟨rfl, h1, ?_⟩
      simpa [runOps] using h2
  | cons op rest ih =>
      intro st b h1 h2
      have hstep : runOps cfg st (op :: rest) =
          runOps cfg (stepOp cfg st op) rest := rfl
      rw [hstep]
      cases op with
      | addErrorOp f e r =>
          have hp := add_error_preserve st f e r
          obtain ⟨hd, hs, hc⟩ := ih (st.add_error f e r) b
            (by rw [hp.2.2]; exact h1) (by rw [hp.1]; exact h2)
          refine ⟨by rw [stepOp] at *; rw [hd, hp.2.1], by rw [stepOp] at *; exact hs, ?_⟩
          rw [stepOp] at *
          rw [hc, hp.2.1]
          simp [FormOp.isCleanOp]
      | cleanDataOp =>
          have hcd := clean_data_state cfg st
          by_cases hE : hasCleanErr cfg st.data = true
          · have hcv : (st.clean_data cfg).cached_valid = some false := by
              rw [hcd.2.2]
              simp [hE]
            obtain ⟨hd, hs, hc⟩ := ih (st.clean_data cfg) false
              (by rw [hcd.2.1]; exact h1) hcv
            refine ⟨by rw [stepOp] at *; rw [hd, hcd.1],
              by rw [stepOp] at *; exact hs, ?_⟩
            rw [stepOp] at *
            rw [hc, hcd.1]
            simp [FormOp.isCleanOp, hE]
          · have hE' : hasCleanErr cfg st.data = false := by
              simpa using hE
            have hcv : (st.clean_data cfg).cached_valid = some b := by
              rw [hcd.2.2]
              simp [hE', h2]
            obtain ⟨hd, hs, hc⟩ := ih (st.clean_data cfg) b
              (by rw [hcd.2.1]; exact h1) hcv
            refine ⟨by rw [stepOp] at *; rw [hd, hcd.1],
              by rw [stepOp] at *; exact hs, ?_⟩
            rw [stepOp] at *
            rw [hc, hcd.1]
            simp [FormOp.isCleanOp, hE']
      | isValidOp =>
          have hid : stepOp cfg st .isValidOp = st := by
            show (st.is_valid cfg).2.1 = st
            rw [is_valid_of_cached cfg st b h2]
          rw [hid]
          obtain ⟨hd, hs, hc⟩ := ih st b h1 h2
          refine ⟨hd, hs, ?_⟩
          rw [hc]
          simp [FormOp.isCleanOp]

/-- C3 counterexample: a manual `add_error` call records an error in the
error map, yet `is_valid()` still returns true — the verdict is the cached
flag (initialized `True`) and neither `add_error` nor column checks ever
touch it, so "invalid iff an error was recorded" fails. -/
theorem c3_validity_iff_errors_counterexample :
    ((runOps cfgEmpty (PandasForm.init [])
        [.addErrorOp "email" "bad" (some 1)]).errors.rows ≠ []) ∧
    (((runOps cfgEmpty (PandasForm.init [])
        [.addErrorOp "email" "bad" (some 1)]).is_valid cfgEmpty).1 =
      PyRet.vBool true) := by
  exact ⟨by decide, by decide⟩

/-- C3 (amended): over every sequence of cleaning, manual `add_error` and
`is_valid` operations on a freshly constructed form, `is_valid()` returns
the cached flag, which is false iff some `_clean_data` pass recorded a
row-level hook error; errors recorded by `add_error` and column-level
check failures never affect the returned verdict. -/
theorem c3_is_valid_cached_flag_amended (cfg : FormConfig)
    (data : List PRow) (ops : List FormOp) :
    ((runOps cfg (PandasForm.init data) ops).is_valid cfg).1 =
      PyRet.vBool (!(ops.any FormOp.isCleanOp && hasCleanErr cfg data)) := by
  have h := runOps_inv cfg ops (PandasForm.init data) true rfl rfl
  have hc := h.2.2
  rw [show (PandasForm.init data).data = data from rfl] at hc
  rw [is_valid_of_cached cfg _ _ hc]
  simp
